import Mathlib

/-
Verification of the memory-allocators repository: a bump-pointer arena
(LinearAllocator.cpp / LinearAllocator.hpp) with save/restore temporary
scopes, and a growable array (DynArray.hpp / DynArray.tpp) optionally
backed by the arena.

Machine integers (size_t, uintptr_t) are modelled as Nat; pointers are
modelled as Nat addresses (0 plays the role of nullptr).  Where overflow
is observable under defined behavior it is modelled explicitly: the byte
counts sizeof(T) * n that DynArray hands to its allocators are size_t
products and wrap modulo 2^64 (sizeT), and the growth factor computation
capacity * 1.5f is float32 arithmetic, modelled with its actual
round-to-nearest-even rounding (roundSig / trunc_mul_growth_factor).
The arena's internal offset arithmetic stays in plain Nat: on every
input where it would wrap in size_t, the source goes on to memset a
region extending past the buffer (undefined behavior), or has been
handed an old_size larger than any allocation the arena could contain.
Byte contents of allocations (memset / memmove) are not tracked: no
stated property depends on them.  Operations that mutate the allocator
return the post-state explicitly, and fallible operations return an
Except value alongside it, mirroring std::expected plus the mutation of
*this.
-/

/-- Error codes of allocator operations (enum AllocatorError). -/
inductive AllocatorError where
  | OutOfMemory
  | InvalidAlignment
  | NullPointer
  | OutOfBounds
deriving DecidableEq, Repr

/-- State of a linear (arena) allocator: base address of the borrowed
backing buffer, its length, and the two allocation offsets
(struct LinearAllocator, data members). -/
@[ext]
structure LinearAllocator where
  buf : Nat
  buf_len : Nat
  prev_offset : Nat
  curr_offset : Nat
deriving DecidableEq, Repr

/-- DEFAULT_ALIGNMENT = 2 * sizeof(void*) = 16 on the 64-bit targets the
repository builds for. -/
def DEFAULT_ALIGNMENT : Nat := 16

/-- LinearAllocator::create: offsets start at 0; the buffer is borrowed. -/
def LinearAllocator.create (backing_buffer backing_buffer_length : Nat) :
    LinearAllocator :=
  { buf := backing_buffer, buf_len := backing_buffer_length,
    curr_offset := 0, prev_offset := 0 }

/-- LinearAllocator::is_power_of_two: (x & (x-1)) == 0 && x != 0. -/
def is_power_of_two (x : Nat) : Bool :=
  (x &&& (x - 1)) == 0 && x != 0

/-- LinearAllocator::align_forward: push ptr up to the next multiple of
align (a power of two), else InvalidAlignment. -/
def align_forward (ptr align : Nat) : Except AllocatorError Nat :=
  if !is_power_of_two align then
    .error .InvalidAlignment
  else
    let modulo := ptr &&& (align - 1)
    if modulo != 0 then .ok (ptr + (align - modulo)) else .ok ptr

/-- LinearAllocator::alloc_align: align curr_offset forward, claim
[offset, offset+size) if it fits, else OutOfMemory.  Returns the address
handed out together with the post-state (the zero-fill of the claimed
bytes is not tracked). -/
def LinearAllocator.alloc_align (a : LinearAllocator) (size align : Nat) :
    Except AllocatorError Nat × LinearAllocator :=
  let curr_ptr := a.buf + a.curr_offset
  match align_forward curr_ptr align with
  | .error e => (.error e, a)
  | .ok p =>
    let offset := p - a.buf
    if offset + size ≤ a.buf_len then
      (.ok (a.buf + offset),
        { a with prev_offset := offset, curr_offset := offset + size })
    else
      (.error .OutOfMemory, a)

/-- LinearAllocator::alloc: alloc_align at DEFAULT_ALIGNMENT. -/
def LinearAllocator.alloc (a : LinearAllocator) (size : Nat) :
    Except AllocatorError Nat × LinearAllocator :=
  a.alloc_align size DEFAULT_ALIGNMENT

/-- LinearAllocator::resize_align.  Address 0 models nullptr.  In the
in-place case the source assigns curr_offset = prev_offset + new_size
before performing the bounds check, so the post-state on the OutOfMemory
path carries the already-updated offset, exactly as the C++ does.  The
memmove of the copy case touches only bytes, which are not tracked. -/
def LinearAllocator.resize_align (a : LinearAllocator)
    (old_memory old_size new_size align : Nat) :
    Except AllocatorError Nat × LinearAllocator :=
  if !is_power_of_two align then
    (.error .InvalidAlignment, a)
  else if old_memory == 0 || old_size == 0 then
    a.alloc_align new_size align
  else if a.buf ≤ old_memory && old_memory < a.buf + a.buf_len then
    if a.buf + a.prev_offset == old_memory then
      let a' := { a with curr_offset := a.prev_offset + new_size }
      if a'.curr_offset > a.buf_len then
        (.error .OutOfMemory, a')
      else
        (.ok old_memory, a')
    else
      a.alloc_align new_size align
  else
    (.error .OutOfBounds, a)

/-- LinearAllocator::resize: resize_align at DEFAULT_ALIGNMENT. -/
def LinearAllocator.resize (a : LinearAllocator)
    (old_memory old_size new_size : Nat) :
    Except AllocatorError Nat × LinearAllocator :=
  a.resize_align old_memory old_size new_size DEFAULT_ALIGNMENT

/-- LinearAllocator::free: always succeeds and does nothing. -/
def LinearAllocator.free (a : LinearAllocator) (_ptr : Nat) :
    Except AllocatorError Unit × LinearAllocator :=
  (.ok (), a)

/-- LinearAllocator::free_all: both offsets reset to 0. -/
def LinearAllocator.free_all (a : LinearAllocator) : LinearAllocator :=
  { a with curr_offset := 0, prev_offset := 0 }

/-- Snapshot taken by a temporary scope (struct TempArenaMemory); the
arena itself is passed explicitly where the C++ stores a pointer. -/
structure TempArenaMemory where
  prev_offset : Nat
  curr_offset : Nat
deriving DecidableEq, Repr

/-- TempArenaMemory::begin: snapshot the arena's offsets. -/
def TempArenaMemory.begin (a : LinearAllocator) : TempArenaMemory :=
  { prev_offset := a.prev_offset, curr_offset := a.curr_offset }

/-- TempArenaMemory::end: write the snapshot back into the arena. -/
def TempArenaMemory.end_ (t : TempArenaMemory) (a : LinearAllocator) :
    LinearAllocator :=
  { a with prev_offset := t.prev_offset, curr_offset := t.curr_offset }

/-- One arena operation, used to quantify over arbitrary sequences of
operations performed between begin and end of a temporary scope. -/
inductive ArenaOp where
  | allocAlign (size align : Nat)
  | allocDefault (size : Nat)
  | resizeAlign (old_memory old_size new_size align : Nat)
  | resizeDefault (old_memory old_size new_size : Nat)
  | freeOne (ptr : Nat)
  | freeAll
deriving DecidableEq, Repr

/-- The arena state after running one operation. -/
def runOp (a : LinearAllocator) : ArenaOp → LinearAllocator
  | .allocAlign size align => (a.alloc_align size align).2
  | .allocDefault size => (a.alloc size).2
  | .resizeAlign om os ns align => (a.resize_align om os ns align).2
  | .resizeDefault om os ns => (a.resize om os ns).2
  | .freeOne ptr => (a.free ptr).2
  | .freeAll => a.free_all

/-- The arena state after running a sequence of operations. -/
def runOps (a : LinearAllocator) (ops : List ArenaOp) : LinearAllocator :=
  ops.foldl runOp a

/-
DynArray<T> (DynArray.hpp / DynArray.tpp).

The data member is modelled as an Option: none is the nullptr data
pointer, some l is a buffer whose live prefix (indices [0, size)) holds
the elements l in index order; the uninitialized tail [size, capacity)
carries no information and is not represented.  The C++ size field always
equals the number of live elements, so size is derived as the length of
the live list.  The allocator pointer is modelled by embedding the arena
state itself (some = attached, none = generic heap); the owns_allocator
flag only affects destruction, which releases resources and is not
modelled.  sizeof(T) and alignof(T) are explicit parameters sz and al of
the operations that allocate.  malloc may fail nondeterministically: its
outcome for the single allocation an operation performs is the explicit
parameter heapOk. -/

/-- Truncation to size_t: the C++ products of sizes wrap modulo 2^64. -/
def sizeT (m : Nat) : Nat := m % 2 ^ 64

/-- Error codes of DynArray operations (enum DynArrayError). -/
inductive DynArrayError where
  | OutOfMemory
  | OutOfRange
  | InvalidCapacity
  | InvalidSize
  | EmptyArray
deriving DecidableEq, Repr

/-- State of a DynArray<T>: live elements (with the data-pointer nullness
tracked by the Option), capacity, and the optionally attached arena. -/
@[ext]
structure DynArray (α : Type) where
  data : Option (List α)
  capacity : Nat
  alloc : Option LinearAllocator
deriving DecidableEq, Repr

/-- GROWTH_FACTOR = 1.5f and DEFAULT_CAPACITY = 8. -/
def DEFAULT_CAPACITY : Nat := 8

/-- The live elements of the array (empty when data is the null pointer). -/
def DynArray.elems {α : Type} (a : DynArray α) : List α :=
  a.data.getD []

/-- The size field: number of live, constructed elements. -/
def DynArray.size {α : Type} (a : DynArray α) : Nat :=
  a.elems.length

/-- DynArray::empty: size == 0. -/
def DynArray.empty {α : Type} (a : DynArray α) : Bool :=
  a.size == 0

/-- What the element-move loop of reserve / shrink_to_fit produces: for
i = 0, 1, ..., size-1 in ascending order, slot i of the new buffer is
move-constructed from old[i] (which is then destroyed), so the new
buffer's live prefix is rebuilt element by element from the front. -/
def moveElems {α : Type} : List α → List α
  | [] => []
  | x :: xs => x :: moveElems xs

/-- Allocation/free activity of one reserve / shrink_to_fit call:
whether a block was requested from the attached arena, whether one was
requested from the general heap, and whether free(data) released the old
heap buffer. -/
structure ReserveLog where
  arenaAlloc : Bool
  heapAlloc : Bool
  freedOld : Bool
deriving DecidableEq, Repr

/-- The log of a call that performed no allocation and freed nothing. -/
def noLog : ReserveLog :=
  { arenaAlloc := false, heapAlloc := false, freedOld := false }

/-- DynArray::reserve, with its allocation/free activity recorded.
No-op if new_capacity <= capacity; otherwise allocate sizeof(T) *
new_capacity bytes — a size_t product, so it wraps modulo 2^64 — from the
attached arena (any allocator error is reported as OutOfMemory) or from
the heap, move the live elements across in ascending index order, free
the old buffer only when it exists and no arena is attached, and install
the new buffer and capacity.  Failed allocation returns OutOfMemory
before anything is touched. -/
def DynArray.reserveFull {α : Type} (a : DynArray α) (sz al : Nat)
    (heapOk : Bool) (new_capacity : Nat) :
    (Except DynArrayError Unit × DynArray α) × ReserveLog :=
  if new_capacity ≤ a.capacity then
    ((.ok (), a), noLog)
  else
    match a.alloc with
    | some ar =>
      match ar.alloc_align (sizeT (sz * new_capacity)) al with
      | (.error _, ar') =>
        ((.error .OutOfMemory, { a with alloc := some ar' }),
         { noLog with arenaAlloc := true })
      | (.ok _, ar') =>
        ((.ok (), { data := some (moveElems a.elems),
                    capacity := new_capacity, alloc := some ar' }),
         { arenaAlloc := true, heapAlloc := false, freedOld := false })
    | none =>
      if heapOk then
        ((.ok (), { data := some (moveElems a.elems),
                    capacity := new_capacity, alloc := none }),
         { arenaAlloc := false, heapAlloc := true,
           freedOld := a.data.isSome })
      else
        ((.error .OutOfMemory, a), { noLog with heapAlloc := true })

/-- DynArray::reserve without the activity log. -/
def DynArray.reserve {α : Type} (a : DynArray α) (sz al : Nat)
    (heapOk : Bool) (new_capacity : Nat) :
    Except DynArrayError Unit × DynArray α :=
  (a.reserveFull sz al heapOk new_capacity).1

/-- Number of binary digits of a Nat below 2^64 (the size_t range),
computed by bounded search so kernel evaluation stays cheap. -/
def bitLen (m : Nat) : Nat :=
  (List.range 64).foldl (fun acc i => if 2 ^ i ≤ m then i + 1 else acc) 0

/-- Round m to at most `bits` significant binary digits: round to
nearest, ties to even — the rounding IEEE-754 binary arithmetic applies
(with the exponent unbounded, which is exact here since every value in
play is far below the float32 overflow threshold). -/
def roundSig (m bits : Nat) : Nat :=
  let k := bitLen m
  if k ≤ bits then m
  else
    let shift := k - bits
    let q := m / 2 ^ shift
    let r := m % 2 ^ shift
    let half := 2 ^ (shift - 1)
    let q' := if half < r ∨ (r = half ∧ q % 2 = 1) then q + 1 else q
    q' * 2 ^ shift

/-- The size_t value of capacity * GROWTH_FACTOR exactly as the source
computes it: capacity is converted to float32 (24-bit significand, round
to nearest even), multiplied by the exactly-representable 1.5f — the
exact product 3 * f / 2 rounded to nearest-even float32 — and truncated
toward zero.  Rounding to 24 significant bits commutes with scaling by 2,
so the rounded product is roundSig (3 * f) 24 / 2. -/
def trunc_mul_growth_factor (c : Nat) : Nat :=
  roundSig (3 * roundSig c 24) 24 / 2

/-- DynArray::grow: candidate capacity is DEFAULT_CAPACITY when capacity
is 0, else static_cast of the float32 product capacity * 1.5f plus 1,
raised to min_capacity if smaller, then handed to reserve. -/
def DynArray.grow {α : Type} (a : DynArray α) (sz al : Nat)
    (heapOk : Bool) (min_capacity : Nat) :
    Except DynArrayError Unit × DynArray α :=
  let new_capacity :=
    if a.capacity == 0 then DEFAULT_CAPACITY
    else trunc_mul_growth_factor a.capacity + 1
  let new_capacity :=
    if new_capacity < min_capacity then min_capacity else new_capacity
  a.reserve sz al heapOk new_capacity

/-- DynArray::at (both overloads): OutOfRange for index >= size, else the
element.  The none fallback is unreachable because index < size is the
length of the live prefix. -/
def DynArray.at_ {α : Type} (a : DynArray α) (index : Nat) :
    Except DynArrayError α :=
  if index ≥ a.size then
    .error .OutOfRange
  else
    match a.elems[index]? with
    | some v => .ok v
    | none => .error .OutOfRange

/-- DynArray::front (both overloads): EmptyArray on an empty array, else
data[0].  The none fallback is unreachable. -/
def DynArray.front {α : Type} (a : DynArray α) : Except DynArrayError α :=
  if a.empty then
    .error .EmptyArray
  else
    match a.elems[0]? with
    | some v => .ok v
    | none => .error .EmptyArray

/-- DynArray::back (both overloads): EmptyArray on an empty array, else
data[size - 1].  The none fallback is unreachable. -/
def DynArray.back {α : Type} (a : DynArray α) : Except DynArrayError α :=
  if a.empty then
    .error .EmptyArray
  else
    match a.elems[a.size - 1]? with
    | some v => .ok v
    | none => .error .EmptyArray

/-- DynArray::resize: reserve when count > capacity, then copy-construct
value into the new slots (count > size), or destroy the trailing elements
(count < size), or touch nothing (count == size); size becomes count. -/
def DynArray.resize {α : Type} (a : DynArray α) (sz al : Nat)
    (heapOk : Bool) (count : Nat) (value : α) :
    Except DynArrayError Unit × DynArray α :=
  let step :=
    if count > a.capacity then a.reserve sz al heapOk count else (.ok (), a)
  match step with
  | (.error e, a') => (.error e, a')
  | (.ok _, a') =>
    if count > a'.size then
      (.ok (), { a' with
        data := some (a'.elems ++ List.replicate (count - a'.size) value) })
    else if count < a'.size then
      (.ok (), { a' with data := some (a'.elems.take count) })
    else
      (.ok (), a')

/-- DynArray::shrink_to_fit: no-op when size == capacity; full release
when size == 0 (data becomes null, capacity 0); otherwise reallocate to
exactly size slots — the byte count sizeof(T) * size again being a
size_t product that wraps modulo 2^64 — with the same move/free protocol
as reserve. -/
def DynArray.shrink_to_fit {α : Type} (a : DynArray α) (sz al : Nat)
    (heapOk : Bool) : Except DynArrayError Unit × DynArray α :=
  if a.size == a.capacity then
    (.ok (), a)
  else if a.size == 0 then
    (.ok (), { a with data := none, capacity := 0 })
  else
    match a.alloc with
    | some ar =>
      match ar.alloc_align (sizeT (sz * a.size)) al with
      | (.error _, ar') => (.error .OutOfMemory, { a with alloc := some ar' })
      | (.ok _, ar') =>
        (.ok (), { data := some (moveElems a.elems),
                   capacity := a.size, alloc := some ar' })
    | none =>
      if heapOk then
        (.ok (), { data := some (moveElems a.elems),
                   capacity := a.size, alloc := none })
      else
        (.error .OutOfMemory, a)

/-- DynArray::clear: destroy all live elements, size becomes 0, capacity
and the data pointer itself are kept. -/
def DynArray.clear {α : Type} (a : DynArray α) : DynArray α :=
  { a with data := a.data.map fun _ => [] }

/-- DynArray::push_back (copy and move forms coincide on values): grow to
size + 1 when size >= capacity (propagating its error), then construct
the new element at index size. -/
def DynArray.push_back {α : Type} (a : DynArray α) (sz al : Nat)
    (heapOk : Bool) (value : α) : Except DynArrayError Unit × DynArray α :=
  let step :=
    if a.size ≥ a.capacity then a.grow sz al heapOk (a.size + 1)
    else (.ok (), a)
  match step with
  | (.error e, a') => (.error e, a')
  | (.ok _, a') => (.ok (), { a' with data := some (a'.elems ++ [value]) })

/-- DynArray::pop_back: EmptyArray when empty, else destroy the element
at size - 1 and decrement size. -/
def DynArray.pop_back {α : Type} (a : DynArray α) :
    Except DynArrayError Unit × DynArray α :=
  if a.empty then
    (.error .EmptyArray, a)
  else
    (.ok (), { a with data := some a.elems.dropLast })

/-- DynArray::insert: OutOfRange when position > size; grow to size + 1
when size >= capacity (propagating its error); shift [position, size) one
slot right by move-construct-then-destroy in descending index order, then
construct value at position — on the live list this yields
take position ++ value :: drop position. -/
def DynArray.insert {α : Type} (a : DynArray α) (sz al : Nat)
    (heapOk : Bool) (position : Nat) (value : α) :
    Except DynArrayError Unit × DynArray α :=
  if position > a.size then
    (.error .OutOfRange, a)
  else
    let step :=
      if a.size ≥ a.capacity then a.grow sz al heapOk (a.size + 1)
      else (.ok (), a)
    match step with
    | (.error e, a') => (.error e, a')
    | (.ok _, a') =>
      (.ok (), { a' with
        data := some (a'.elems.take position ++ value :: a'.elems.drop position) })

/-- DynArray::erase_range: OutOfRange when first >= size, last > size or
first > last; no-op when first == last; otherwise destroy [first, last)
and left-shift [last, size) into the gap by move-construct-then-destroy,
shrinking size by last - first — on the live list this yields
take first ++ drop last. -/
def DynArray.erase_range {α : Type} (a : DynArray α) (first last : Nat) :
    Except DynArrayError Unit × DynArray α :=
  if first ≥ a.size || last > a.size || first > last then
    (.error .OutOfRange, a)
  else if first == last then
    (.ok (), a)
  else
    (.ok (), { a with data := some (a.elems.take first ++ a.elems.drop last) })

/-- DynArray::erase: erase_range(position, position + 1). -/
def DynArray.erase {α : Type} (a : DynArray α) (position : Nat) :
    Except DynArrayError Unit × DynArray α :=
  a.erase_range position (position + 1)

/-- The copy constructor: a fresh object (null data, size 0, capacity 0,
no allocator) reserves other.capacity, then copy-constructs other's live
elements in ascending index order and sets size = other.size; when
other.size is 0 the copy loop leaves the fresh buffer untouched.  On
reserve failure the source asserts; with NDEBUG the assert vanishes and
the object is left as the failed reserve left it, which is what the model
returns. -/
def DynArray.copyCtor {α : Type} (sz al : Nat) (heapOk : Bool)
    (other : DynArray α) : DynArray α :=
  let init : DynArray α := { data := none, capacity := 0, alloc := none }
  match init.reserve sz al heapOk other.capacity with
  | (.ok _, a') =>
    if other.size == 0 then a' else { a' with data := some other.elems }
  | (.error _, a') => a'

/-- The copy assignment operator (for distinct objects: the this != &other
self-assignment guard is vacuous on distinct values): clear, reserve
other.capacity, copy-construct other's live elements and set
size = other.size; when other.size is 0 the copy loop touches nothing.
On reserve failure the source asserts; with NDEBUG the destination is
left as clear plus the failed reserve left it. -/
def DynArray.copyAssign {α : Type} (dest : DynArray α) (sz al : Nat)
    (heapOk : Bool) (other : DynArray α) : DynArray α :=
  let d := dest.clear
  match d.reserve sz al heapOk other.capacity with
  | (.ok _, d') =>
    if other.size == 0 then d' else { d' with data := some other.elems }
  | (.error _, d') => d'

/-- The DynArray(size_t) constructor with no allocator: a fresh object
reserves initial_capacity (asserting success; the model takes the heap
allocation to succeed). -/
def DynArray.mkWithCapacity (α : Type) (sz al initial_capacity : Nat) :
    DynArray α :=
  (({ data := none, capacity := 0, alloc := none } : DynArray α).reserve
    sz al true initial_capacity).2

/-- Growth scenario of the spec: a heap-backed array of 8-byte elements
constructed with initial capacity 3. -/
def growScenario0 : DynArray Nat := DynArray.mkWithCapacity Nat 8 8 3

/-- The scenario after appending 10. -/
def growScenario1 : DynArray Nat := (growScenario0.push_back 8 8 true 10).2

/-- The scenario after appending 10, 20. -/
def growScenario2 : DynArray Nat := (growScenario1.push_back 8 8 true 20).2

/-- The scenario after appending 10, 20, 30. -/
def growScenario3 : DynArray Nat := (growScenario2.push_back 8 8 true 30).2

/-- The scenario after appending 10, 20, 30, 40. -/
def growScenario4 : DynArray Nat := (growScenario3.push_back 8 8 true 40).2

/- ------------------------------------------------------------------ -/
/- Helper lemmas -/

theorem moveElems_eq {α : Type} (l : List α) : moveElems l = l := by
  induction l with
  | nil => rfl
  | cons x xs ih => simp [moveElems, ih]

theorem alloc_align_buf (a : LinearAllocator) (s al : Nat) :
    (a.alloc_align s al).2.buf = a.buf ∧
    (a.alloc_align s al).2.buf_len = a.buf_len := by
  simp only [LinearAllocator.alloc_align]
  split
  · exact ⟨rfl, rfl⟩
  · split <;> exact ⟨rfl, rfl⟩

theorem resize_align_buf (a : LinearAllocator) (om os ns al : Nat) :
    (a.resize_align om os ns al).2.buf = a.buf ∧
    (a.resize_align om os ns al).2.buf_len = a.buf_len := by
  simp only [LinearAllocator.resize_align]
  split
  · exact ⟨rfl, rfl⟩
  · split
    · exact alloc_align_buf a ns al
    · split
      · split
        · split <;> exact ⟨rfl, rfl⟩
        · exact alloc_align_buf a ns al
      · exact ⟨rfl, rfl⟩

theorem runOp_buf (a : LinearAllocator) (op : ArenaOp) :
    (runOp a op).buf = a.buf ∧ (runOp a op).buf_len = a.buf_len := by
  cases op with
  | allocAlign s al => exact alloc_align_buf a s al
  | allocDefault s => exact alloc_align_buf a s DEFAULT_ALIGNMENT
  | resizeAlign om os ns al => exact resize_align_buf a om os ns al
  | resizeDefault om os ns => exact resize_align_buf a om os ns DEFAULT_ALIGNMENT
  | freeOne p => exact ⟨rfl, rfl⟩
  | freeAll => exact ⟨rfl, rfl⟩

theorem runOps_buf (a : LinearAllocator) (ops : List ArenaOp) :
    (runOps a ops).buf = a.buf ∧ (runOps a ops).buf_len = a.buf_len := by
  induction ops generalizing a with
  | nil => exact ⟨rfl, rfl⟩
  | cons op ops ih =>
    have h1 := runOp_buf a op
    have h2 := ih (runOp a op)
    exact ⟨h2.1.trans h1.1, h2.2.trans h1.2⟩

/- ------------------------------------------------------------------ -/
/- Arena claims -/

/-- Claim C1: the offset-ordering invariant is claimed to hold after every
arena operation including failure paths, and in particular a resize_align
call failing with OutOfMemory is claimed to leave curr_offset <=
buffer_length.  The source assigns curr_offset = prev_offset + new_size
before its bounds check, so on the reachable arena over a 16-byte buffer
at address 32, after alloc_align(8, 1), the call resize_align(32, 8, 100,
1) returns OutOfMemory yet leaves curr_offset = 100 > 16 = buffer_length:
the code violates the claimed invariant. -/
theorem resize_align_oom_breaks_offset_invariant :
    ((((LinearAllocator.create 32 16).alloc_align 8 1).2.resize_align
        32 8 100 1).1 = .error .OutOfMemory) ∧
    ((((LinearAllocator.create 32 16).alloc_align 8 1).2.resize_align
        32 8 100 1).2.curr_offset = 100) ∧
    ¬ ((((LinearAllocator.create 32 16).alloc_align 8 1).2.resize_align
        32 8 100 1).2.curr_offset ≤
       (((LinearAllocator.create 32 16).alloc_align 8 1).2.resize_align
        32 8 100 1).2.buf_len) := by
  refine ⟨rfl, rfl, ?_⟩
  decide

/-- Claim C6: for every arena state, whatever was allocated before,
free_all resets both offsets to 0, and the next allocation of
buffer_length bytes (alloc_align at alignment 1, so that the claim's
quantification over every base address is meaningful) succeeds and
returns the buffer's base address. -/
theorem free_all_then_full_alloc (a : LinearAllocator) :
    a.free_all.prev_offset = 0 ∧ a.free_all.curr_offset = 0 ∧
    (a.free_all.alloc_align a.buf_len 1).1 = .ok a.buf := by
  refine ⟨rfl, rfl, ?_⟩
  simp [LinearAllocator.free_all, LinearAllocator.alloc_align, align_forward,
        is_power_of_two]

/-- Claim C7: for every arena state, after taking a temporary scope
snapshot, allocating inside the scope, and running any further sequence
of arena operations, end() restores the arena (in particular both
offsets) to its state at begin; a second end() leaves the arena
unchanged; and an allocation of the same size and alignment made
immediately after end() returns the same address as the one made inside
the scope. -/
theorem temp_scope_restore (a : LinearAllocator) (ops : List ArenaOp)
    (size align : Nat) :
    (TempArenaMemory.begin a).end_ (runOps (a.alloc_align size align).2 ops)
        = a ∧
    (TempArenaMemory.begin a).end_
        ((TempArenaMemory.begin a).end_
          (runOps (a.alloc_align size align).2 ops)) =
      (TempArenaMemory.begin a).end_
        (runOps (a.alloc_align size align).2 ops) ∧
    (((TempArenaMemory.begin a).end_
        (runOps (a.alloc_align size align).2 ops)).alloc_align size align).1
      = (a.alloc_align size align).1 := by
  have hb := runOps_buf (a.alloc_align size align).2 ops
  have hb2 := alloc_align_buf a size align
  have h1 : (TempArenaMemory.begin a).end_
      (runOps (a.alloc_align size align).2 ops) = a := by
    ext
    · simp [TempArenaMemory.end_, TempArenaMemory.begin, hb.1, hb2.1]
    · simp [TempArenaMemory.end_, TempArenaMemory.begin, hb.2, hb2.2]
    · simp [TempArenaMemory.end_, TempArenaMemory.begin]
    · simp [TempArenaMemory.end_, TempArenaMemory.begin]
  refine ⟨h1, ?_, ?_⟩ <;> rw [h1]
  ext <;> simp [TempArenaMemory.end_, TempArenaMemory.begin]

/- ------------------------------------------------------------------ -/
/- DynArray helper lemmas -/

theorem alloc_align_error_state (a : LinearAllocator) (s al : Nat) :
    ∀ e, (a.alloc_align s al).1 = .error e → (a.alloc_align s al).2 = a := by
  simp only [LinearAllocator.alloc_align]
  split
  · intro e _; rfl
  · split
    · intro e h; simp at h
    · intro e _; rfl

theorem clear_elems {α : Type} (a : DynArray α) : a.clear.elems = [] := by
  cases h : a.data <;> simp [DynArray.clear, DynArray.elems, h]

theorem clear_capacity {α : Type} (a : DynArray α) :
    a.clear.capacity = a.capacity := rfl

theorem clear_alloc {α : Type} (a : DynArray α) : a.clear.alloc = a.alloc := rfl

theorem reserveFull_le {α : Type} (a : DynArray α) (sz al : Nat)
    (heapOk : Bool) (n : Nat) (h : n ≤ a.capacity) :
    a.reserveFull sz al heapOk n = ((.ok (), a), noLog) := by
  simp [DynArray.reserveFull, h]

theorem reserveFull_error {α : Type} (a : DynArray α) (sz al : Nat)
    (heapOk : Bool) (n : Nat) :
    ∀ e, (a.reserveFull sz al heapOk n).1.1 = .error e →
      e = .OutOfMemory ∧ (a.reserveFull sz al heapOk n).1.2 = a := by
  obtain ⟨d, c, alo⟩ := a
  intro e
  by_cases hle : n ≤ c
  · simp [DynArray.reserveFull, hle]
  · cases alo with
    | none =>
      cases heapOk with
      | true => simp [DynArray.reserveFull, hle]
      | false =>
        intro h
        simp [DynArray.reserveFull, hle] at h ⊢
        exact h.symm
    | some ar =>
      rcases har : ar.alloc_align (sizeT (sz * n)) al with ⟨r, ar2⟩
      cases r with
      | ok p =>
        intro h
        simp [DynArray.reserveFull, hle, har] at h
      | error e1 =>
        intro h
        have h2 : ar2 = ar := by
          have h3 := alloc_align_error_state ar (sizeT (sz * n)) al e1
            (by rw [har])
          rw [har] at h3
          exact h3
        simp [DynArray.reserveFull, hle, har] at h ⊢
        exact ⟨h.symm, h2⟩

theorem reserveFull_ok_gt {α : Type} (a : DynArray α) (sz al : Nat)
    (heapOk : Bool) (n : Nat) (hgt : a.capacity < n)
    (h : (a.reserveFull sz al heapOk n).1.1 = .ok ()) :
    (a.reserveFull sz al heapOk n).1.2.data = some a.elems ∧
    (a.reserveFull sz al heapOk n).1.2.capacity = n := by
  obtain ⟨d, c, alo⟩ := a
  simp only [DynArray.capacity] at hgt
  have hle : ¬ n ≤ c := by omega
  cases alo with
  | none =>
    cases heapOk with
    | true =>
      simp [DynArray.reserveFull, hle, moveElems_eq, DynArray.elems]
    | false =>
      simp [DynArray.reserveFull, hle] at h
  | some ar =>
    rcases har : ar.alloc_align (sizeT (sz * n)) al with ⟨r, ar2⟩
    cases r with
    | error e1 => simp [DynArray.reserveFull, hle, har] at h
    | ok p =>
      simp [DynArray.reserveFull, hle, har, moveElems_eq, DynArray.elems]

theorem reserveFull_log_none {α : Type} (a : DynArray α) (sz al : Nat)
    (heapOk : Bool) (n : Nat) (hgt : a.capacity < n) (ha : a.alloc = none) :
    (a.reserveFull sz al heapOk n).2.arenaAlloc = false ∧
    (a.reserveFull sz al heapOk n).2.heapAlloc = true ∧
    ((a.reserveFull sz al heapOk n).1.1 = .ok () →
       (a.reserveFull sz al heapOk n).2.freedOld = a.data.isSome) := by
  obtain ⟨d, c, alo⟩ := a
  simp only [DynArray.capacity] at hgt
  simp only [DynArray.alloc] at ha
  subst ha
  have hle : ¬ n ≤ c := by omega
  cases heapOk with
  | true => simp [DynArray.reserveFull, hle, noLog]
  | false => simp [DynArray.reserveFull, hle, noLog]

theorem reserveFull_log_arena {α : Type} (a : DynArray α) (sz al : Nat)
    (heapOk : Bool) (n : Nat) (ar : LinearAllocator)
    (hgt : a.capacity < n) (ha : a.alloc = some ar) :
    (a.reserveFull sz al heapOk n).2.arenaAlloc = true ∧
    (a.reserveFull sz al heapOk n).2.heapAlloc = false ∧
    (a.reserveFull sz al heapOk n).2.freedOld = false ∧
    ((a.reserveFull sz al heapOk n).1.1 = .ok () →
       (a.reserveFull sz al heapOk n).1.2.alloc =
         some (ar.alloc_align (sizeT (sz * n)) al).2) := by
  obtain ⟨d, c, alo⟩ := a
  simp only [DynArray.capacity] at hgt
  simp only [DynArray.alloc] at ha
  subst ha
  have hle : ¬ n ≤ c := by omega
  rcases har : ar.alloc_align (sizeT (sz * n)) al with ⟨r, ar2⟩
  cases r with
  | error e1 => simp [DynArray.reserveFull, hle, har, noLog]
  | ok p => simp [DynArray.reserveFull, hle, har, noLog]

theorem reserveFull_none_true {α : Type} (a : DynArray α) (sz al n : Nat)
    (hgt : a.capacity < n) (ha : a.alloc = none) :
    a.reserveFull sz al true n =
      ((.ok (), { data := some (moveElems a.elems), capacity := n,
                  alloc := none }),
       { arenaAlloc := false, heapAlloc := true,
         freedOld := a.data.isSome }) := by
  obtain ⟨d, c, alo⟩ := a
  simp only [DynArray.capacity] at hgt
  simp only [DynArray.alloc] at ha
  subst ha
  have hle : ¬ n ≤ c := by omega
  simp [DynArray.reserveFull, hle]

theorem reserve_ok_elems {α : Type} (a : DynArray α) (sz al : Nat)
    (heapOk : Bool) (n : Nat) (h : (a.reserve sz al heapOk n).1 = .ok ()) :
    (a.reserve sz al heapOk n).2.elems = a.elems ∧
    (a.reserve sz al heapOk n).2.capacity = max a.capacity n := by
  by_cases hle : n ≤ a.capacity
  · rw [DynArray.reserve, reserveFull_le a sz al heapOk n hle]
    exact ⟨rfl, (Nat.max_eq_left hle).symm⟩
  · have hgt : a.capacity < n := by omega
    have h2 := reserveFull_ok_gt a sz al heapOk n hgt h
    refine ⟨?_, ?_⟩
    · show (a.reserveFull sz al heapOk n).1.2.elems = a.elems
      simp [DynArray.elems, h2.1]
    · show (a.reserveFull sz al heapOk n).1.2.capacity = max a.capacity n
      rw [h2.2, Nat.max_eq_right (Nat.le_of_lt hgt)]

theorem reserve_error {α : Type} (a : DynArray α) (sz al : Nat)
    (heapOk : Bool) (n : Nat) :
    ∀ e, (a.reserve sz al heapOk n).1 = .error e →
      e = .OutOfMemory ∧ (a.reserve sz al heapOk n).2 = a :=
  fun e h => reserveFull_error a sz al heapOk n e h

theorem grow_error {α : Type} (a : DynArray α) (sz al : Nat)
    (heapOk : Bool) (m : Nat) :
    ∀ e, (a.grow sz al heapOk m).1 = .error e →
      e = .OutOfMemory ∧ (a.grow sz al heapOk m).2 = a :=
  fun e h => reserve_error a sz al heapOk _ e h

theorem grow_ok_elems {α : Type} (a : DynArray α) (sz al : Nat)
    (heapOk : Bool) (m : Nat) (h : (a.grow sz al heapOk m).1 = .ok ()) :
    (a.grow sz al heapOk m).2.elems = a.elems :=
  (reserve_ok_elems a sz al heapOk _ h).1

theorem push_back_spec {α : Type} (a : DynArray α) (sz al : Nat)
    (heapOk : Bool) (x : α) :
    ((a.push_back sz al heapOk x).1 = .ok () →
       (a.push_back sz al heapOk x).2.elems = a.elems ++ [x]) ∧
    (∀ e, (a.push_back sz al heapOk x).1 = .error e →
       e = .OutOfMemory ∧ (a.push_back sz al heapOk x).2 = a) := by
  by_cases hc : a.size ≥ a.capacity
  · rcases hg : a.grow sz al heapOk (a.size + 1) with ⟨r, a2⟩
    cases r with
    | error e1 =>
      constructor
      · intro h
        simp [DynArray.push_back, hc, hg] at h
      · intro e h
        have h2 := grow_error a sz al heapOk (a.size + 1) e1 (by rw [hg])
        rw [hg] at h2
        simp [DynArray.push_back, hc, hg] at h ⊢
        exact ⟨h ▸ h2.1, h2.2⟩
    | ok u =>
      cases u
      have h2 : a2.elems = a.elems := by
        have h3 := grow_ok_elems a sz al heapOk (a.size + 1) (by rw [hg])
        rw [hg] at h3
        exact h3
      simp only [DynArray.elems] at h2
      constructor
      · intro _
        simp [DynArray.push_back, hc, hg, DynArray.elems, h2]
      · intro e h
        simp [DynArray.push_back, hc, hg] at h
  · constructor
    · intro _
      simp [DynArray.push_back, hc, DynArray.elems]
    · intro e h
      simp [DynArray.push_back, hc] at h

theorem at_error {α : Type} (a : DynArray α) (i : Nat) :
    ∀ e, a.at_ i = .error e → e = .OutOfRange := by
  simp only [DynArray.at_]
  split
  · intro e h; simp at h; exact h.symm
  · split
    · intro e h; simp at h
    · intro e h; simp at h; exact h.symm

theorem front_error {α : Type} (a : DynArray α) :
    ∀ e, a.front = .error e → e = .EmptyArray := by
  simp only [DynArray.front]
  split
  · intro e h; simp at h; exact h.symm
  · split
    · intro e h; simp at h
    · intro e h; simp at h; exact h.symm

theorem back_error {α : Type} (a : DynArray α) :
    ∀ e, a.back = .error e → e = .EmptyArray := by
  simp only [DynArray.back]
  split
  · intro e h; simp at h; exact h.symm
  · split
    · intro e h; simp at h
    · intro e h; simp at h; exact h.symm

theorem pop_back_error {α : Type} (a : DynArray α) :
    ∀ e, (a.pop_back).1 = .error e →
      e = .EmptyArray ∧ (a.pop_back).2 = a := by
  simp only [DynArray.pop_back]
  split
  · intro e h; simp at h; exact ⟨h.symm, rfl⟩
  · intro e h; simp at h

theorem insert_error {α : Type} (a : DynArray α) (sz al : Nat)
    (heapOk : Bool) (position : Nat) (x : α) :
    ∀ e, (a.insert sz al heapOk position x).1 = .error e →
      (e = .OutOfRange ∨ e = .OutOfMemory) ∧
      (a.insert sz al heapOk position x).2 = a := by
  intro e
  by_cases hp : position > a.size
  · simp only [DynArray.insert, hp, if_true]
    intro h
    simp at h
    refine ⟨Or.inl h.symm, ?_⟩
    simp [DynArray.insert, hp]
  · by_cases hc : a.size ≥ a.capacity
    · rcases hg : a.grow sz al heapOk (a.size + 1) with ⟨r, a2⟩
      cases r with
      | error e1 =>
        have h2 := grow_error a sz al heapOk (a.size + 1) e1 (by rw [hg])
        rw [hg] at h2
        intro h
        simp [DynArray.insert, hp, hc, hg] at h ⊢
        exact ⟨Or.inr (h ▸ h2.1), h2.2⟩
      | ok u =>
        cases u
        intro h
        simp [DynArray.insert, hp, hc, hg] at h
    · intro h
      simp [DynArray.insert, hp, hc] at h

theorem erase_range_error {α : Type} (a : DynArray α) (first last : Nat) :
    ∀ e, (a.erase_range first last).1 = .error e →
      e = .OutOfRange ∧ (a.erase_range first last).2 = a := by
  simp only [DynArray.erase_range]
  split
  · intro e h; simp at h; exact ⟨h.symm, rfl⟩
  · split
    · intro e h; simp at h
    · intro e h; simp at h

theorem erase_error {α : Type} (a : DynArray α) (position : Nat) :
    ∀ e, (a.erase position).1 = .error e →
      e = .OutOfRange ∧ (a.erase position).2 = a :=
  fun e h => erase_range_error a position (position + 1) e h

theorem resize_error {α : Type} (a : DynArray α) (sz al : Nat)
    (heapOk : Bool) (count : Nat) (v : α) :
    ∀ e, (a.resize sz al heapOk count v).1 = .error e →
      e = .OutOfMemory ∧ (a.resize sz al heapOk count v).2 = a := by
  intro e
  by_cases hc : count > a.capacity
  · rcases hr : a.reserve sz al heapOk count with ⟨r, a2⟩
    cases r with
    | error e1 =>
      have h2 := reserve_error a sz al heapOk count e1 (by rw [hr])
      rw [hr] at h2
      intro h
      simp [DynArray.resize, hc, hr] at h ⊢
      exact ⟨h ▸ h2.1, h2.2⟩
    | ok u =>
      cases u
      intro h
      simp only [DynArray.resize, hc, if_true, hr] at h
      split at h
      · simp at h
      · split at h <;> simp at h
  · intro h
    simp only [DynArray.resize, hc, if_false] at h
    split at h
    · simp at h
    · split at h <;> simp at h

theorem shrink_to_fit_error {α : Type} (a : DynArray α) (sz al : Nat)
    (heapOk : Bool) :
    ∀ e, (a.shrink_to_fit sz al heapOk).1 = .error e →
      e = .OutOfMemory ∧ (a.shrink_to_fit sz al heapOk).2 = a := by
  obtain ⟨d, c, alo⟩ := a
  intro e
  by_cases h1 : DynArray.size ⟨d, c, alo⟩ = c
  · simp [DynArray.shrink_to_fit, h1]
  · by_cases h0 : DynArray.size ⟨d, c, alo⟩ = 0
    · have h1' : ¬ (0 : Nat) = c := by rw [h0] at h1; exact h1
      simp [DynArray.shrink_to_fit, h1, h0, h1']
    · cases alo with
      | none =>
        cases heapOk with
        | true => simp [DynArray.shrink_to_fit, h1, h0]
        | false =>
          intro h
          simp [DynArray.shrink_to_fit, h1, h0] at h ⊢
          exact h.symm
      | some ar =>
        rcases har : ar.alloc_align (sizeT (sz * DynArray.size ⟨d, c, some ar⟩)) al
          with ⟨r, ar2⟩
        cases r with
        | ok p =>
          intro h
          simp [DynArray.shrink_to_fit, h1, h0, har] at h
        | error e1 =>
          intro h
          have h2 : ar2 = ar := by
            have h3 := alloc_align_error_state ar
              (sizeT (sz * DynArray.size ⟨d, c, some ar⟩)) al e1 (by rw [har])
            rw [har] at h3
            exact h3
          simp [DynArray.shrink_to_fit, h1, h0, har] at h ⊢
          exact ⟨h.symm, h2⟩

theorem if_lt_max (cand m : Nat) :
    (if cand < m then m else cand) = max m cand := by
  rw [Nat.max_def]
  split <;> split <;> omega

theorem beq_zero_ite {β : Type} (c : Nat) (x y : β) :
    (if c == 0 then x else y) = if c = 0 then x else y := by
  by_cases h : c = 0 <;> simp [h]

theorem elems_mk {α : Type} (l : List α) (c : Nat)
    (alo : Option LinearAllocator) :
    (DynArray.mk (some l) c alo).elems = l := rfl

theorem elems_mk_none {α : Type} (c : Nat) (alo : Option LinearAllocator) :
    (DynArray.mk (none : Option (List α)) c alo).elems = [] := rfl

theorem copyCtor_spec {α : Type} (other : DynArray α) (sz al : Nat) :
    (DynArray.copyCtor sz al true other).elems = other.elems ∧
    (DynArray.copyCtor sz al true other).capacity = other.capacity := by
  simp only [DynArray.copyCtor]
  by_cases hc0 : other.capacity ≤ 0
  · rw [DynArray.reserve,
      reserveFull_le _ sz al true other.capacity (by simpa using hc0)]
    have hcc : other.capacity = 0 := by omega
    by_cases hs : (other.size == 0) = true
    · have hel : other.elems = [] :=
        List.length_eq_zero.mp (by simpa [DynArray.size] using hs)
      simp [hs, elems_mk, elems_mk_none, hel, hcc]
    · simp [hs, elems_mk, hcc]
  · rw [DynArray.reserve,
      reserveFull_none_true _ sz al other.capacity
        (show (0 : Nat) < other.capacity by omega) rfl]
    by_cases hs : (other.size == 0) = true
    · have hel : other.elems = [] :=
        List.length_eq_zero.mp (by simpa [DynArray.size] using hs)
      simp [hs, elems_mk, elems_mk_none, moveElems_eq, hel]
    · simp [hs, elems_mk]

theorem copyAssign_spec {α : Type} (dest other : DynArray α) (sz al : Nat)
    (hd : dest.alloc = none) :
    (dest.copyAssign sz al true other).elems = other.elems ∧
    (dest.copyAssign sz al true other).capacity
      = max dest.capacity other.capacity := by
  simp only [DynArray.copyAssign]
  by_cases hle : other.capacity ≤ dest.capacity
  · rw [DynArray.reserve,
      reserveFull_le _ sz al true other.capacity
        (by rw [clear_capacity]; exact hle)]
    by_cases hs : (other.size == 0) = true
    · have hel : other.elems = [] :=
        List.length_eq_zero.mp (by simpa [DynArray.size] using hs)
      simp [hs, clear_elems, clear_capacity, Nat.max_eq_left hle, hel]
    · simp [hs, elems_mk, clear_capacity, Nat.max_eq_left hle]
  · rw [DynArray.reserve,
      reserveFull_none_true (dest.clear) sz al other.capacity
        (by rw [clear_capacity]; omega) (by rw [clear_alloc]; exact hd)]
    have hmax : max dest.capacity other.capacity = other.capacity :=
      Nat.max_eq_right (by omega)
    by_cases hs : (other.size == 0) = true
    · have hel : other.elems = [] :=
        List.length_eq_zero.mp (by simpa [DynArray.size] using hs)
      simp [hs, elems_mk, clear_elems, moveElems_eq, hel, hmax]
    · simp [hs, elems_mk, hmax]

/- ------------------------------------------------------------------ -/
/- DynArray claims -/

/-- Claim C2 (counterexample): copy assignment does not shrink a larger
destination: assigning a source of capacity 3 into a destination of
capacity 10 (both reachable, heap-backed) leaves the destination's
capacity at 10, not the source's 3, because reserve(other.capacity) is a
no-op when the destination capacity is already at least as large. -/
theorem copy_assign_keeps_larger_capacity :
    ((({ data := some [1, 2], capacity := 10, alloc := none } :
        DynArray Nat).copyAssign 8 8 true
        { data := some [7], capacity := 3, alloc := none }).capacity = 10) ∧
    ({ data := some [7], capacity := 3, alloc := none } :
        DynArray Nat).capacity = 3 ∧ (10 : Nat) ≠ 3 := by
  refine ⟨rfl, rfl, by decide⟩

/-- Claim C2 (amended): for every source, copy construction yields an
array with the source's live elements in order, the source's size, and
capacity exactly the source's capacity; copy assignment (here onto a
heap-backed destination, with the heap allocation succeeding) yields the
source's live elements in order and the source's size, but capacity
max(destination's previous capacity, source's capacity) — the source's
capacity exactly only when it is at least the destination's, since
reserve never shrinks. -/
theorem copy_semantics {α : Type} (dest other : DynArray α) (sz al : Nat)
    (hd : dest.alloc = none) :
    (DynArray.copyCtor sz al true other).elems = other.elems ∧
    (DynArray.copyCtor sz al true other).size = other.size ∧
    (DynArray.copyCtor sz al true other).capacity = other.capacity ∧
    (dest.copyAssign sz al true other).elems = other.elems ∧
    (dest.copyAssign sz al true other).size = other.size ∧
    (dest.copyAssign sz al true other).capacity
      = max dest.capacity other.capacity := by
  have h1 := copyCtor_spec other sz al
  have h2 := copyAssign_spec dest other sz al hd
  exact ⟨h1.1, by simp [DynArray.size, h1.1], h1.2,
         h2.1, by simp [DynArray.size, h2.1], h2.2⟩

/-- Claim C2 witness: the amended statement at concrete arrays — the copy
of a capacity-3 source has capacity 3, and assigning it onto a
capacity-10 destination leaves capacity max 10 3 = 10. -/
theorem copy_semantics_witness :
    (DynArray.copyCtor 8 8 true
      ({ data := some [7], capacity := 3, alloc := none } :
        DynArray Nat)).capacity = 3 ∧
    ((({ data := some [1, 2], capacity := 10, alloc := none } :
        DynArray Nat).copyAssign 8 8 true
        { data := some [7], capacity := 3, alloc := none }).capacity
      = max 10 3) :=
  ⟨(copy_semantics ({ data := some [1, 2], capacity := 10, alloc := none } :
      DynArray Nat) { data := some [7], capacity := 3, alloc := none }
      8 8 rfl).2.2.1,
   (copy_semantics ({ data := some [1, 2], capacity := 10, alloc := none } :
      DynArray Nat) { data := some [7], capacity := 3, alloc := none }
      8 8 rfl).2.2.2.2.2⟩

/-- Claim C3 (counterexample): the byte count sizeof(T) * n is a size_t
product and wraps modulo 2^64, so reserve does not always allocate
exactly n slots: on an arena-backed empty array over a 16-byte buffer,
reserve(2^61) with 8-byte elements requests 8 * 2^61 mod 2^64 = 0 bytes,
succeeds with capacity 2^61, and the arena hands out a zero-byte block —
its offsets do not move — although n slots need 8 * 2^61 > 16 bytes. -/
theorem reserve_wraps_byte_count :
    ((({ data := some [], capacity := 0,
         alloc := some (LinearAllocator.create 32 16) } :
        DynArray Nat).reserveFull 8 8 true (2 ^ 61)).1.1 = .ok ()) ∧
    ((({ data := some [], capacity := 0,
         alloc := some (LinearAllocator.create 32 16) } :
        DynArray Nat).reserveFull 8 8 true (2 ^ 61)).1.2.capacity
      = 2 ^ 61) ∧
    ((({ data := some [], capacity := 0,
         alloc := some (LinearAllocator.create 32 16) } :
        DynArray Nat).reserveFull 8 8 true (2 ^ 61)).1.2.alloc
      = some { buf := 32, buf_len := 16, prev_offset := 0,
               curr_offset := 0 }) ∧
    sizeT (8 * 2 ^ 61) = 0 ∧ ¬ (8 * 2 ^ 61 ≤ 16) := by
  refine ⟨rfl, by decide, by decide, by decide, by decide⟩

/-- Claim C3 (amended): reserve(n) is a no-op (success, no allocation,
no free) when n is at most the capacity; when n exceeds it and the
underlying allocation succeeds, the array holds exactly its previous
live elements (moved across in the ascending order of moveElems) in a
buffer of capacity exactly n; every failure is OutOfMemory and leaves
the whole array unchanged (strong failure safety); without an attached
arena the block is requested from the heap and the old buffer is freed
exactly when it existed, and with an attached arena the block of
sizeT (sz * n) bytes — the size_t product, which wraps modulo 2^64 and
therefore covers exactly n slots only when sz * n < 2^64 — is requested
from the arena via alloc_align, nothing is requested from the heap, and
the old buffer is never freed. -/
theorem reserve_contract {α : Type} (a : DynArray α) (sz al : Nat)
    (heapOk : Bool) (n : Nat) :
    (n ≤ a.capacity → a.reserveFull sz al heapOk n = ((.ok (), a), noLog)) ∧
    (a.capacity < n → (a.reserveFull sz al heapOk n).1.1 = .ok () →
       (a.reserveFull sz al heapOk n).1.2.data = some a.elems ∧
       (a.reserveFull sz al heapOk n).1.2.capacity = n) ∧
    (∀ e, (a.reserveFull sz al heapOk n).1.1 = .error e →
       e = .OutOfMemory ∧ (a.reserveFull sz al heapOk n).1.2 = a) ∧
    (a.capacity < n → a.alloc = none →
       (a.reserveFull sz al heapOk n).2.arenaAlloc = false ∧
       (a.reserveFull sz al heapOk n).2.heapAlloc = true ∧
       ((a.reserveFull sz al heapOk n).1.1 = .ok () →
          (a.reserveFull sz al heapOk n).2.freedOld = a.data.isSome)) ∧
    (∀ ar, a.capacity < n → a.alloc = some ar →
       (a.reserveFull sz al heapOk n).2.arenaAlloc = true ∧
       (a.reserveFull sz al heapOk n).2.heapAlloc = false ∧
       (a.reserveFull sz al heapOk n).2.freedOld = false ∧
       ((a.reserveFull sz al heapOk n).1.1 = .ok () →
          (a.reserveFull sz al heapOk n).1.2.alloc =
            some (ar.alloc_align (sizeT (sz * n)) al).2)) :=
  ⟨fun h => reserveFull_le a sz al heapOk n h,
   fun hgt h => reserveFull_ok_gt a sz al heapOk n hgt h,
   reserveFull_error a sz al heapOk n,
   fun hgt ha => reserveFull_log_none a sz al heapOk n hgt ha,
   fun ar hgt ha => reserveFull_log_arena a sz al heapOk n ar hgt ha⟩

/-- Claim C3 witness: the contract at concrete inputs — reserve(3) on a
capacity-5 array is the identity with an empty log, and reserve(7) on the
same array yields the same single element with capacity exactly 7. -/
theorem reserve_contract_witness :
    (({ data := some [1], capacity := 5, alloc := none } :
        DynArray Nat).reserveFull 8 8 true 3
      = ((.ok (), { data := some [1], capacity := 5, alloc := none }),
         noLog)) ∧
    ((({ data := some [1], capacity := 5, alloc := none } :
        DynArray Nat).reserveFull 8 8 true 7).1.2.data = some [1] ∧
     (({ data := some [1], capacity := 5, alloc := none } :
        DynArray Nat).reserveFull 8 8 true 7).1.2.capacity = 7) :=
  ⟨(reserve_contract ({ data := some [1], capacity := 5, alloc := none } :
      DynArray Nat) 8 8 true 3).1 (by decide),
   (reserve_contract ({ data := some [1], capacity := 5, alloc := none } :
      DynArray Nat) 8 8 true 7).2.1 (by decide) rfl⟩

/-- Claim C4 (counterexample): pop_back on a reachable empty array
returns EmptyArray, which is neither OutOfMemory nor OutOfRange — so the
claim that every error a DynArray operation returns is OutOfMemory or
OutOfRange, and in particular that EmptyArray is never produced, is
false.  The variants never produced are InvalidCapacity and InvalidSize. -/
theorem pop_back_empty_returns_emptyarray :
    ((({ data := some [], capacity := 8, alloc := none } :
        DynArray Nat).pop_back).1 = .error .EmptyArray) ∧
    DynArrayError.EmptyArray ≠ .OutOfMemory ∧
    DynArrayError.EmptyArray ≠ .OutOfRange :=
  ⟨rfl, by decide, by decide⟩

/-- Claim C4 (amended): no DynArray operation ever produces the error
values InvalidCapacity or InvalidSize: for every array state and all
arguments, every error returned by at, front, back, reserve, grow,
resize, shrink_to_fit, push_back, pop_back, insert, erase or erase_range
is one of OutOfMemory, OutOfRange or EmptyArray. -/
theorem dynarray_errors_restricted {α : Type} (a : DynArray α)
    (sz al : Nat) (heapOk : Bool) (i count m position first last : Nat)
    (x v : α) :
    (∀ e, a.at_ i = .error e →
       e = .OutOfMemory ∨ e = .OutOfRange ∨ e = .EmptyArray) ∧
    (∀ e, a.front = .error e →
       e = .OutOfMemory ∨ e = .OutOfRange ∨ e = .EmptyArray) ∧
    (∀ e, a.back = .error e →
       e = .OutOfMemory ∨ e = .OutOfRange ∨ e = .EmptyArray) ∧
    (∀ e, (a.reserve sz al heapOk count).1 = .error e →
       e = .OutOfMemory ∨ e = .OutOfRange ∨ e = .EmptyArray) ∧
    (∀ e, (a.grow sz al heapOk m).1 = .error e →
       e = .OutOfMemory ∨ e = .OutOfRange ∨ e = .EmptyArray) ∧
    (∀ e, (a.resize sz al heapOk count v).1 = .error e →
       e = .OutOfMemory ∨ e = .OutOfRange ∨ e = .EmptyArray) ∧
    (∀ e, (a.shrink_to_fit sz al heapOk).1 = .error e →
       e = .OutOfMemory ∨ e = .OutOfRange ∨ e = .EmptyArray) ∧
    (∀ e, (a.push_back sz al heapOk x).1 = .error e →
       e = .OutOfMemory ∨ e = .OutOfRange ∨ e = .EmptyArray) ∧
    (∀ e, (a.pop_back).1 = .error e →
       e = .OutOfMemory ∨ e = .OutOfRange ∨ e = .EmptyArray) ∧
    (∀ e, (a.insert sz al heapOk position x).1 = .error e →
       e = .OutOfMemory ∨ e = .OutOfRange ∨ e = .EmptyArray) ∧
    (∀ e, (a.erase position).1 = .error e →
       e = .OutOfMemory ∨ e = .OutOfRange ∨ e = .EmptyArray) ∧
    (∀ e, (a.erase_range first last).1 = .error e →
       e = .OutOfMemory ∨ e = .OutOfRange ∨ e = .EmptyArray) := by
  refine ⟨fun e h => Or.inr (Or.inl (at_error a i e h)),
    fun e h => Or.inr (Or.inr (front_error a e h)),
    fun e h => Or.inr (Or.inr (back_error a e h)),
    fun e h => Or.inl (reserve_error a sz al heapOk count e h).1,
    fun e h => Or.inl (grow_error a sz al heapOk m e h).1,
    fun e h => Or.inl (resize_error a sz al heapOk count v e h).1,
    fun e h => Or.inl (shrink_to_fit_error a sz al heapOk e h).1,
    fun e h => Or.inl ((push_back_spec a sz al heapOk x).2 e h).1,
    fun e h => Or.inr (Or.inr (pop_back_error a e h).1),
    fun e h => ?_,
    fun e h => Or.inr (Or.inl (erase_error a position e h).1),
    fun e h => Or.inr (Or.inl (erase_range_error a first last e h).1)⟩
  rcases (insert_error a sz al heapOk position x e h).1 with h1 | h1
  · exact Or.inr (Or.inl h1)
  · exact Or.inl h1

/-- Claim C4 witness: the amended statement applied at the concrete input
of the counterexample — the error pop_back returns on the empty array is
in the produced set. -/
theorem dynarray_errors_restricted_witness :
    DynArrayError.EmptyArray = .OutOfMemory ∨
    DynArrayError.EmptyArray = .OutOfRange ∨
    DynArrayError.EmptyArray = .EmptyArray :=
  (dynarray_errors_restricted
    ({ data := some [], capacity := 8, alloc := none } : DynArray Nat)
    8 8 true 0 0 0 0 0 0 0
    0).2.2.2.2.2.2.2.2.1 DynArrayError.EmptyArray rfl

/-- Claim C5 (counterexample): the code's growth candidate is the
truncated float32 product capacity * 1.5f plus 1, not the claim's exact
floor(capacity * 1.5) + 1: at the reachable capacity 5592409 the exact
product 8388613.5 rounds (half to even) up to the float 8388614, so grow
reserves 8388615 where the claim's formula yields
5592409 * 3 / 2 + 1 = 8388614. -/
theorem grow_rounds_up_at_large_capacity :
    ((({ data := some [], capacity := 5592409, alloc := none } :
        DynArray Nat).grow 8 8 true 1).2.capacity = 8388615) ∧
    5592409 * 3 / 2 + 1 = 8388614 ∧ (8388615 : Nat) ≠ 8388614 := by
  refine ⟨by decide, by decide, by decide⟩

/-- Claim C5 (amended): grow(min_capacity) reserves
max(min_capacity, capacity == 0 ? DEFAULT_CAPACITY :
trunc_mul_growth_factor capacity + 1), where trunc_mul_growth_factor is
the truncated round-to-nearest-even float32 product capacity * 1.5f —
equal to floor(capacity * 1.5) at every capacity the concrete scenario
touches; and concretely, a heap-backed array of initial capacity 3
appending 10, 20, 30, 40 succeeds at every step, keeps capacity 3
through the first three appends, and exactly the fourth append grows it
once, to floor(3 * 1.5) + 1 = 5, holding 10, 20, 30, 40. -/
theorem grow_policy {α : Type} (a : DynArray α) (sz al : Nat)
    (heapOk : Bool) (m : Nat) :
    (a.grow sz al heapOk m = a.reserve sz al heapOk
       (max m (if a.capacity = 0 then DEFAULT_CAPACITY
               else trunc_mul_growth_factor a.capacity + 1))) ∧
    trunc_mul_growth_factor 3 + 1 = 5 ∧ 3 * 3 / 2 + 1 = 5 ∧
    growScenario0.capacity = 3 ∧ growScenario0.size = 0 ∧
    (growScenario0.push_back 8 8 true 10).1 = .ok () ∧
    growScenario1.capacity = 3 ∧
    (growScenario1.push_back 8 8 true 20).1 = .ok () ∧
    growScenario2.capacity = 3 ∧
    (growScenario2.push_back 8 8 true 30).1 = .ok () ∧
    growScenario3.capacity = 3 ∧
    (growScenario3.push_back 8 8 true 40).1 = .ok () ∧
    growScenario4.capacity = 5 ∧
    growScenario4.elems = [10, 20, 30, 40] := by
  refine ⟨?_, by decide, by decide, rfl, rfl, rfl, rfl, rfl, rfl, rfl,
    rfl, rfl, rfl, rfl⟩
  unfold DynArray.grow
  dsimp only
  congr 1
  rw [if_lt_max, beq_zero_ite]

/-- Claim C8: for every array state and value x, if push_back(x)
succeeds, the immediately following pop_back succeeds, restores the
previous size, and leaves every previously live element unchanged. -/
theorem push_pop_roundtrip {α : Type} (a : DynArray α) (sz al : Nat)
    (heapOk : Bool) (x : α)
    (h : (a.push_back sz al heapOk x).1 = .ok ()) :
    ((a.push_back sz al heapOk x).2.pop_back).1 = .ok () ∧
    ((a.push_back sz al heapOk x).2.pop_back).2.size = a.size ∧
    ∀ i, i < a.size →
      ((a.push_back sz al heapOk x).2.pop_back).2.elems[i]?
        = a.elems[i]? := by
  have he := (push_back_spec a sz al heapOk x).1 h
  have hne : ((a.push_back sz al heapOk x).2.empty) = false := by
    simp [DynArray.empty, DynArray.size, he]
  have hpop : (a.push_back sz al heapOk x).2.pop_back =
      (.ok (), { (a.push_back sz al heapOk x).2 with
                 data := some ((a.push_back sz al heapOk x).2.elems.dropLast) }) := by
    simp [DynArray.pop_back, hne]
  rw [hpop]
  have hdl : (a.push_back sz al heapOk x).2.elems.dropLast = a.elems := by
    rw [he]
    simp
  refine ⟨rfl, ?_, ?_⟩
  · show ((a.push_back sz al heapOk x).2.elems.dropLast).length = a.size
    rw [hdl]
    rfl
  · intro i hi
    show ((a.push_back sz al heapOk x).2.elems.dropLast)[i]? = a.elems[i]?
    rw [hdl]

/-- Claim C8 witness: pushing 5 onto the reachable one-element array [1]
and popping restores size 1 and keeps element 0 equal to 1. -/
theorem push_pop_roundtrip_witness :
    (((({ data := some [1], capacity := 2, alloc := none } :
        DynArray Nat).push_back 8 8 true 5).2.pop_back).1 = .ok ()) ∧
    (((({ data := some [1], capacity := 2, alloc := none } :
        DynArray Nat).push_back 8 8 true 5).2.pop_back).2.size = 1) ∧
    (((({ data := some [1], capacity := 2, alloc := none } :
        DynArray Nat).push_back 8 8 true 5).2.pop_back).2.elems[0]?
      = some 1) := by
  have h := push_pop_roundtrip
    ({ data := some [1], capacity := 2, alloc := none } : DynArray Nat)
    8 8 true 5 rfl
  exact ⟨h.1, h.2.1, h.2.2 0 (by decide)⟩

/-- Claim C9: every listed error return leaves the array state exactly as
it was: pop_back returning EmptyArray, insert returning OutOfRange, erase
returning OutOfRange and erase_range returning OutOfRange all return the
unchanged array (at, front and back are embedded as read-only functions
of the array, so they cannot mutate it by construction). -/
theorem error_leaves_unchanged {α : Type} (a : DynArray α) (sz al : Nat)
    (heapOk : Bool) (position first last : Nat) (x : α) :
    ((a.pop_back).1 = .error .EmptyArray → (a.pop_back).2 = a) ∧
    ((a.insert sz al heapOk position x).1 = .error .OutOfRange →
       (a.insert sz al heapOk position x).2 = a) ∧
    ((a.erase position).1 = .error .OutOfRange →
       (a.erase position).2 = a) ∧
    ((a.erase_range first last).1 = .error .OutOfRange →
       (a.erase_range first last).2 = a) :=
  ⟨fun h => (pop_back_error a _ h).2,
   fun h => (insert_error a sz al heapOk position x _ h).2,
   fun h => (erase_error a position _ h).2,
   fun h => (erase_range_error a first last _ h).2⟩

/-- Claim C9 witness: pop_back on the empty array and an out-of-range
insert both return the array unchanged. -/
theorem error_leaves_unchanged_witness :
    ((({ data := some [], capacity := 8, alloc := none } :
        DynArray Nat).pop_back).2
      = { data := some [], capacity := 8, alloc := none }) ∧
    ((({ data := some [3], capacity := 8, alloc := none } :
        DynArray Nat).insert 8 8 true 5 7).2
      = { data := some [3], capacity := 8, alloc := none }) :=
  ⟨(error_leaves_unchanged
      ({ data := some [], capacity := 8, alloc := none } : DynArray Nat)
      8 8 true 0 0 0 0).1 rfl,
   (error_leaves_unchanged
      ({ data := some [3], capacity := 8, alloc := none } : DynArray Nat)
      8 8 true 5 0 0 7).2.1 rfl⟩

/-- Claim C10: erase_range with an empty range first == last succeeds and
changes nothing when first < size, yet fails OutOfRange (still changing
nothing) when first == last == size, because the first >= size test
rejects it before the empty-range test runs. -/
theorem erase_range_empty_range {α : Type} (a : DynArray α) (first : Nat) :
    (first < a.size → a.erase_range first first = (.ok (), a)) ∧
    a.erase_range a.size a.size = (.error .OutOfRange, a) := by
  constructor
  · intro h
    have h1 : ¬ first ≥ a.size := by omega
    have h2 : ¬ first > a.size := by omega
    simp [DynArray.erase_range, h1, h2, Nat.lt_irrefl]
  · simp [DynArray.erase_range, Nat.le_refl]

/-- Claim C10 witness: on the one-element array [5], erase_range(0, 0)
succeeds unchanged while erase_range(1, 1) — first == last == size — is
rejected. -/
theorem erase_range_empty_range_witness :
    (({ data := some [5], capacity := 8, alloc := none } :
        DynArray Nat).erase_range 0 0
      = (.ok (), { data := some [5], capacity := 8, alloc := none })) ∧
    (({ data := some [5], capacity := 8, alloc := none } :
        DynArray Nat).erase_range 1 1
      = (.error .OutOfRange,
         { data := some [5], capacity := 8, alloc := none })) :=
  ⟨(erase_range_empty_range
      ({ data := some [5], capacity := 8, alloc := none } : DynArray Nat)
      0).1 (by decide),
   (erase_range_empty_range
      ({ data := some [5], capacity := 8, alloc := none } : DynArray Nat)
      0).2⟩
